import Mathlib

/-!
Shallow embedding of the schnapsen-bots repository (midriskbotfinal.py,
highriskbotfinal.py, lowriskbotfinal.py) and proofs about the claims of its
specification.

Conventions of the embedding:
* Python floats are modelled as rationals (`ℚ`); all arithmetic the bots
  perform on scores and tolerances is addition, subtraction, multiplication,
  `min`/`max` and division, which `ℚ` models exactly.
* The external rules engine (modules `game` and `deck`, not part of this
  repository) is modelled from the spec where its behaviour is pinned down
  (scoring oracle, rank values) and as explicit data carried by
  `PlayerPerspective` / `GameState` where the bots only query it.
* The bots' random source `self.rand` is modelled by explicit data: the
  candidate list of a perspective is taken to be already in post-shuffle
  order, and `perspective.make_assumption` is an indexed stream of sampled
  states, the index playing the role of the advancing random-generator
  state (one fresh draw per call).
-/

/-- Modelled from the spec: the five card ranks of the external deck module
that occur in a schnapsen deck.  (deck.py is not part of this repository.) -/
inductive Rank
  | ACE
  | TEN
  | KING
  | QUEEN
  | JACK
  deriving DecidableEq, Repr

/-- Modelled from the spec: the numeric `Rank.value` of the external deck
module, used by the bots for "strictly higher-ranked" comparisons.  Only the
relative order of the values is ever used by the code under verification;
we order the ranks by their trick value, matching the spec's reading of
"higher-ranked". -/
def Rank.value : Rank → Nat
  | .ACE => 11
  | .TEN => 10
  | .KING => 4
  | .QUEEN => 3
  | .JACK => 2

/-- Modelled from the spec: the four suits of the external deck module. -/
inductive Suit
  | HEARTS
  | DIAMONDS
  | SPADES
  | CLUBS
  deriving DecidableEq, Repr

/-- A card of the external deck module: a rank and a suit. -/
structure Card where
  rank : Rank
  suit : Suit
  deriving DecidableEq, Repr

/-- Modelled from the spec: `SchnapsenTrickScorer.rank_to_points` of the
rules engine — Ace=11, Ten=10, King=4, Queen=3, Jack=2. -/
def SchnapsenTrickScorer.rank_to_points (r : Rank) : ℚ :=
  match r with
  | .ACE => 11
  | .TEN => 10
  | .KING => 4
  | .QUEEN => 3
  | .JACK => 2

/-- The `Move` union of the rules engine as the bots inspect it with
`isinstance`: regular plays, marriages and trump exchanges.  The extra
constructor `UnknownMove` stands for an object of any other `Move` subclass
reaching the bots' `isinstance` fall-through default branches. -/
inductive Move
  | RegularMove (card : Card)
  | Marriage (suit : Suit) (queen_card : Card) (king_card : Card)
  | TrumpExchange (jack : Card)
  | UnknownMove
  deriving DecidableEq, Repr

/-- The part of the rules engine's player record the bots read:
`player.hand`. -/
structure Player where
  hand : List Card
  deriving Repr

/-- The part of the rules engine's `GameState` the bots read: the follower's
hand (used as "the opponent's hand") and the trump suit. -/
structure GameState where
  follower : Player
  trump_suit : Suit
  deriving Repr

/-- Modelled from the spec: `SchnapsenTrickScorer().marriage(move, state)
.pending_points` of the rules engine — 40 for a King+Queen pair of the trump
suit, 20 for any other same-suit pair. -/
def SchnapsenTrickScorer.marriage_pending_points (suit : Suit) (gs : GameState) : ℚ :=
  if suit = gs.trump_suit then 40 else 20

/-- The agent's view of the game, holding exactly the queries the bots make
of the rules engine's `PlayerPerspective`.  `valid_moves` is the candidate
list in post-shuffle order; `make_assumption lm i` is the `i`-th sampled
complete state drawn with leading move `lm` (the index models the advancing
random source). -/
structure PlayerPerspective where
  valid_moves : List Move
  make_assumption : Option Move → Nat → GameState
  get_opponent_won_cards : List Card
  phase_two : Bool
  get_opponent_hand_in_phase_two : List Card
  get_known_cards_of_opponent_hand : List Card
  get_initial_deck : List Card
  seen_cards : List Card
  get_trump_suit : Suit
  get_state_in_phase_two : GameState

/-- The mutable state of a `MidRiskBot` instance (src/midriskbotfinal.py):
risk tolerance, sampling parameters and the per-game move buffers.  The
random source is modelled externally (see `PlayerPerspective`). -/
structure MidRiskBot where
  risk_tolerance : ℚ
  num_samples : Int
  depth : Int
  my_past_moves : List Move
  opponent_past_moves : List Move
  deriving Repr

/-- `MidRiskBot.__init__`: stores the parameters and empties both move
buffers.  Unlike the other two bots it performs no validation of
`num_samples` or `depth`. -/
def MidRiskBot.init (num_samples : Int) (depth : Int) (risk_tolerance : ℚ := 55/100) : MidRiskBot :=
  { risk_tolerance := risk_tolerance
    num_samples := num_samples
    depth := depth
    my_past_moves := []
    opponent_past_moves := [] }

/-- `MidRiskBot.notify_game_end`: on a win the tolerance becomes
`min(t + 0.05, 1)`, on a loss `max(t - 0.05, 0)`; both move buffers are
reset. -/
def MidRiskBot.notify_game_end (self : MidRiskBot) (won : Bool) : MidRiskBot :=
  let t := if won then min (self.risk_tolerance + 5/100) 1
           else max (self.risk_tolerance - 5/100) 0
  { self with risk_tolerance := t, my_past_moves := [], opponent_past_moves := [] }


/-- The mutable state of a `HighRiskBotFinal` instance
(src/highriskbotfinal.py). -/
structure HighRiskBotFinal where
  risk_tolerance : ℚ
  num_samples : Int
  depth : Int
  my_past_moves : List Move
  opponent_past_moves : List Move
  deriving Repr

/-- `HighRiskBotFinal.__init__`: asserts `num_samples >= 1` and
`depth >= 1` (a failing `assert` aborts construction, modelled as `none`),
then stores the parameters. -/
def HighRiskBotFinal.init (num_samples : Int) (depth : Int) (risk_tolerance : ℚ := 8/10) :
    Option HighRiskBotFinal :=
  if 1 ≤ num_samples ∧ 1 ≤ depth then
    some { risk_tolerance := risk_tolerance
           num_samples := num_samples
           depth := depth
           my_past_moves := []
           opponent_past_moves := [] }
  else none

/-- `HighRiskBotFinal.recalculate_risk_parameters`: add 0.05 on a win,
subtract 0.05 on a loss, then clamp with `max(0, min(t, 1))`. -/
def HighRiskBotFinal.recalculate_risk_parameters (self : HighRiskBotFinal) (won : Bool) : HighRiskBotFinal :=
  let t := if won then self.risk_tolerance + 5/100 else self.risk_tolerance - 5/100
  { self with risk_tolerance := max 0 (min t 1) }

/-- `HighRiskBotFinal.notify_game_end`: recalculates the risk parameters and
resets both move buffers. -/
def HighRiskBotFinal.notify_game_end (self : HighRiskBotFinal) (won : Bool) : HighRiskBotFinal :=
  let s := self.recalculate_risk_parameters won
  { s with my_past_moves := [], opponent_past_moves := [] }


/-- The mutable state of a `LowRiskBotFinal` instance
(src/lowriskbotfinal.py).  `my_past_moves` holds `Option Move` because
`get_move` appends its result, which is `None` on an empty candidate
list. -/
structure LowRiskBotFinal where
  risk_tolerance : ℚ
  num_samples : Int
  depth : Int
  my_past_moves : List (Option Move)
  opponent_past_moves : List Move
  deriving Repr

/-- `LowRiskBotFinal.__init__`: asserts `num_samples >= 1` and `depth >= 1`
(a failing `assert` aborts construction, modelled as `none`), then stores
the parameters. -/
def LowRiskBotFinal.init (num_samples : Int) (depth : Int) (risk_tolerance : ℚ := 3/10) :
    Option LowRiskBotFinal :=
  if 1 ≤ num_samples ∧ 1 ≤ depth then
    some { risk_tolerance := risk_tolerance
           num_samples := num_samples
           depth := depth
           my_past_moves := []
           opponent_past_moves := [] }
  else none

/-- `LowRiskBotFinal.adjust_risk_parameters`: add 0.1 on a win, subtract
0.05 on a loss, then clamp with `max(0, min(t, 1))`. -/
def LowRiskBotFinal.adjust_risk_parameters (self : LowRiskBotFinal) (won : Bool) : LowRiskBotFinal :=
  let t := if won then self.risk_tolerance + 1/10 else self.risk_tolerance - 5/100
  { self with risk_tolerance := max 0 (min t 1) }

/-- `LowRiskBotFinal.notify_game_end`: adjusts the risk parameters and
resets both move buffers. -/
def LowRiskBotFinal.notify_game_end (self : LowRiskBotFinal) (won : Bool) : LowRiskBotFinal :=
  let s := self.adjust_risk_parameters won
  { s with my_past_moves := [], opponent_past_moves := [] }


section ToleranceInvariant

/-- One step of `MidRiskBot.notify_game_end` keeps the tolerance in [0,1]
when it starts there. -/
lemma MidRiskBot.tolerance_step_mid (s : MidRiskBot) (won : Bool)
    (h0 : 0 ≤ s.risk_tolerance) (_h1 : s.risk_tolerance ≤ 1) :
    0 ≤ (s.notify_game_end won).risk_tolerance ∧
      (s.notify_game_end won).risk_tolerance ≤ 1 := by
  unfold MidRiskBot.notify_game_end
  cases won <;> simp only [] <;> constructor
  · exact le_max_right _ _
  · exact max_le (by linarith) (by norm_num)
  · exact le_min (by linarith) (by norm_num)
  · exact min_le_right _ _

/-- One step of `HighRiskBotFinal.notify_game_end` keeps the tolerance in
[0,1] (the clamp makes this true from any starting value). -/
lemma HighRiskBotFinal.tolerance_step_high (s : HighRiskBotFinal) (won : Bool) :
    0 ≤ (s.notify_game_end won).risk_tolerance ∧
      (s.notify_game_end won).risk_tolerance ≤ 1 := by
  unfold HighRiskBotFinal.notify_game_end HighRiskBotFinal.recalculate_risk_parameters
  refine ⟨le_max_left _ _, max_le ?_ (min_le_right _ _)⟩
  norm_num

/-- One step of `LowRiskBotFinal.notify_game_end` keeps the tolerance in
[0,1] (the clamp makes this true from any starting value). -/
lemma LowRiskBotFinal.tolerance_step_low (s : LowRiskBotFinal) (won : Bool) :
    0 ≤ (s.notify_game_end won).risk_tolerance ∧
      (s.notify_game_end won).risk_tolerance ≤ 1 := by
  unfold LowRiskBotFinal.notify_game_end LowRiskBotFinal.adjust_risk_parameters
  refine ⟨le_max_left _ _, max_le ?_ (min_le_right _ _)⟩
  norm_num

/-- Run a sequence of game-end notifications (each `Bool` a win flag). -/
def MidRiskBot.run_games (s : MidRiskBot) (results : List Bool) : MidRiskBot :=
  results.foldl MidRiskBot.notify_game_end s

/-- Run a sequence of game-end notifications (each `Bool` a win flag). -/
def HighRiskBotFinal.run_games (s : HighRiskBotFinal) (results : List Bool) :
    HighRiskBotFinal :=
  results.foldl HighRiskBotFinal.notify_game_end s

/-- Run a sequence of game-end notifications (each `Bool` a win flag). -/
def LowRiskBotFinal.run_games (s : LowRiskBotFinal) (results : List Bool) :
    LowRiskBotFinal :=
  results.foldl LowRiskBotFinal.notify_game_end s

lemma MidRiskBot.run_games_tolerance_mid (results : List Bool) :
    ∀ (s : MidRiskBot), 0 ≤ s.risk_tolerance → s.risk_tolerance ≤ 1 →
      0 ≤ (s.run_games results).risk_tolerance ∧
        (s.run_games results).risk_tolerance ≤ 1 := by
  induction results with
  | nil => intro s h0 h1; exact ⟨h0, h1⟩
  | cons w rest ih =>
      intro s h0 h1
      have hstep := MidRiskBot.tolerance_step_mid s w h0 h1
      exact ih (s.notify_game_end w) hstep.1 hstep.2

lemma HighRiskBotFinal.run_games_tolerance_high (results : List Bool) :
    ∀ (s : HighRiskBotFinal), 0 ≤ s.risk_tolerance → s.risk_tolerance ≤ 1 →
      0 ≤ (s.run_games results).risk_tolerance ∧
        (s.run_games results).risk_tolerance ≤ 1 := by
  induction results with
  | nil => intro s h0 h1; exact ⟨h0, h1⟩
  | cons w rest ih =>
      intro s _ _
      have hstep := HighRiskBotFinal.tolerance_step_high s w
      exact ih (s.notify_game_end w) hstep.1 hstep.2

lemma LowRiskBotFinal.run_games_tolerance_low (results : List Bool) :
    ∀ (s : LowRiskBotFinal), 0 ≤ s.risk_tolerance → s.risk_tolerance ≤ 1 →
      0 ≤ (s.run_games results).risk_tolerance ∧
        (s.run_games results).risk_tolerance ≤ 1 := by
  induction results with
  | nil => intro s h0 h1; exact ⟨h0, h1⟩
  | cons w rest ih =>
      intro s _ _
      have hstep := LowRiskBotFinal.tolerance_step_low s w
      exact ih (s.notify_game_end w) hstep.1 hstep.2

/-- C1: For every agent variant and every value of risk tolerance in [0,1],
after any sequence of game-end notifications (each adding the variant's win
delta on a win or subtracting its loss delta on a loss, then clamping), the
risk tolerance remains within [0,1]. -/
theorem C1_tolerance_invariant :
    (∀ (s : MidRiskBot) (results : List Bool),
        0 ≤ s.risk_tolerance → s.risk_tolerance ≤ 1 →
        0 ≤ (s.run_games results).risk_tolerance ∧
          (s.run_games results).risk_tolerance ≤ 1) ∧
    (∀ (s : HighRiskBotFinal) (results : List Bool),
        0 ≤ s.risk_tolerance → s.risk_tolerance ≤ 1 →
        0 ≤ (s.run_games results).risk_tolerance ∧
          (s.run_games results).risk_tolerance ≤ 1) ∧
    (∀ (s : LowRiskBotFinal) (results : List Bool),
        0 ≤ s.risk_tolerance → s.risk_tolerance ≤ 1 →
        0 ≤ (s.run_games results).risk_tolerance ∧
          (s.run_games results).risk_tolerance ≤ 1) := by
  refine ⟨?_, ?_, ?_⟩
  · intro s results h0 h1; exact MidRiskBot.run_games_tolerance_mid results s h0 h1
  · intro s results h0 h1; exact HighRiskBotFinal.run_games_tolerance_high results s h0 h1
  · intro s results h0 h1; exact LowRiskBotFinal.run_games_tolerance_low results s h0 h1

/-- Witness for C1 at concrete bots and a concrete win/loss sequence. -/
theorem C1_tolerance_invariant_witness :
    0 ≤ ((MidRiskBot.init 10 4).run_games [true, true, false]).risk_tolerance ∧
      ((MidRiskBot.init 10 4).run_games [true, true, false]).risk_tolerance ≤ 1 := by
  exact C1_tolerance_invariant.1 (MidRiskBot.init 10 4) [true, true, false]
    (by norm_num [MidRiskBot.init]) (by norm_num [MidRiskBot.init])

end ToleranceInvariant

section RiskEvaluators

/-- `MidRiskBot._evaluate_points_accumulated`: trick points of the played
card for a regular move, the marriage's pending points for a marriage, 0
otherwise. -/
def MidRiskBot.evaluate_points_accumulated (gamestate : GameState) (move : Move) : ℚ :=
  match move with
  | .RegularMove card0 => SchnapsenTrickScorer.rank_to_points card0.rank
  | .Marriage suit _ _ => SchnapsenTrickScorer.marriage_pending_points suit gamestate
  | _ => 0

/-- `MidRiskBot.estimate_probability_of_consequence`: for a regular move the
fraction of the opponent's (= follower's) hand ranked strictly higher than
the played card; for a marriage the counts of same-suit-above-Queen cards
and of trump cards, summed and divided by the hand size; 0.3 for a trump
exchange; 0.5 for any other move kind.  Empty hands yield 0 in the first
two cases. -/
def MidRiskBot.estimate_probability_of_consequence (gamestate : GameState) (move : Move) : ℚ :=
  let opponent_hand := gamestate.follower.hand
  match move with
  | .RegularMove card0 =>
      let higher_cards := opponent_hand.filter
        (fun card => decide (card0.rank.value < card.rank.value))
      if opponent_hand.isEmpty then 0
      else (higher_cards.length : ℚ) / (opponent_hand.length : ℚ)
  | .Marriage suit _ _ =>
      let same_suit_cards := opponent_hand.filter
        (fun card => decide (card.suit = suit ∧ Rank.QUEEN.value < card.rank.value))
      let trump_cards := opponent_hand.filter
        (fun card => decide (card.suit = gamestate.trump_suit))
      if opponent_hand.isEmpty then 0
      else ((same_suit_cards.length : ℚ) + (trump_cards.length : ℚ)) /
        (opponent_hand.length : ℚ)
  | .TrumpExchange _ => 3/10
  | .UnknownMove => 1/2

/-- `MidRiskBot.estimate_consequence_severity`: trick points of the played
card, the marriage's pending points, 1 for a trump exchange, 0 for any other
move kind. -/
def MidRiskBot.estimate_consequence_severity (gamestate : GameState) (move : Move) : ℚ :=
  match move with
  | .RegularMove card0 => SchnapsenTrickScorer.rank_to_points card0.rank
  | .Marriage suit _ _ => SchnapsenTrickScorer.marriage_pending_points suit gamestate
  | .TrumpExchange _ => 1
  | .UnknownMove => 0

/-- `MidRiskBot.evaluate_risk`: severity times probability times the bot's
current risk tolerance. -/
def MidRiskBot.evaluate_risk (self : MidRiskBot) (gamestate : GameState) (move : Move) : ℚ :=
  let probability_of_consequence := MidRiskBot.estimate_probability_of_consequence gamestate move
  let consequence_severity := MidRiskBot.estimate_consequence_severity gamestate move
  consequence_severity * probability_of_consequence * self.risk_tolerance

/-- `HighRiskBotFinal.estimate_probability_of_consequence`
(src/highriskbotfinal.py, same formula as MidRiskBot's; the rank comparison
`card.rank > move.card.rank` is modelled as the numeric rank-value
comparison). -/
def HighRiskBotFinal.estimate_probability_of_consequence (gamestate : GameState) (move : Move) : ℚ :=
  let opponent_hand := gamestate.follower.hand
  match move with
  | .RegularMove card0 =>
      let higher_cards := opponent_hand.filter
        (fun card => decide (card0.rank.value < card.rank.value))
      if opponent_hand.isEmpty then 0
      else (higher_cards.length : ℚ) / (opponent_hand.length : ℚ)
  | .Marriage suit _ _ =>
      let same_suit_cards := opponent_hand.filter
        (fun card => decide (card.suit = suit ∧ Rank.QUEEN.value < card.rank.value))
      let trump_cards := opponent_hand.filter
        (fun card => decide (card.suit = gamestate.trump_suit))
      if opponent_hand.isEmpty then 0
      else ((same_suit_cards.length : ℚ) + (trump_cards.length : ℚ)) /
        (opponent_hand.length : ℚ)
  | .TrumpExchange _ => 3/10
  | .UnknownMove => 1/2

/-- `HighRiskBotFinal.estimate_consequence_severity`
(src/highriskbotfinal.py). -/
def HighRiskBotFinal.estimate_consequence_severity (gamestate : GameState) (move : Move) : ℚ :=
  match move with
  | .RegularMove card0 => SchnapsenTrickScorer.rank_to_points card0.rank
  | .Marriage suit _ _ => SchnapsenTrickScorer.marriage_pending_points suit gamestate
  | .TrumpExchange _ => 1
  | .UnknownMove => 0

/-- `HighRiskBotFinal.evaluate_risk`: severity times probability times the
bot's current risk tolerance. -/
def HighRiskBotFinal.evaluate_risk (self : HighRiskBotFinal) (gamestate : GameState) (move : Move) : ℚ :=
  let probability_of_consequence := HighRiskBotFinal.estimate_probability_of_consequence gamestate move
  let consequence_severity := HighRiskBotFinal.estimate_consequence_severity gamestate move
  consequence_severity * probability_of_consequence * self.risk_tolerance

/-- `LowRiskBotFinal.estimate_probability_of_consequence`
(src/lowriskbotfinal.py, same formula as MidRiskBot's). -/
def LowRiskBotFinal.estimate_probability_of_consequence (gamestate : GameState) (move : Move) : ℚ :=
  let opponent_hand := gamestate.follower.hand
  match move with
  | .RegularMove card0 =>
      let higher_cards := opponent_hand.filter
        (fun card => decide (card0.rank.value < card.rank.value))
      if opponent_hand.isEmpty then 0
      else (higher_cards.length : ℚ) / (opponent_hand.length : ℚ)
  | .Marriage suit _ _ =>
      let same_suit_cards := opponent_hand.filter
        (fun card => decide (card.suit = suit ∧ Rank.QUEEN.value < card.rank.value))
      let trump_cards := opponent_hand.filter
        (fun card => decide (card.suit = gamestate.trump_suit))
      if opponent_hand.isEmpty then 0
      else ((same_suit_cards.length : ℚ) + (trump_cards.length : ℚ)) /
        (opponent_hand.length : ℚ)
  | .TrumpExchange _ => 3/10
  | .UnknownMove => 1/2

/-- `LowRiskBotFinal.estimate_consequence_severity`
(src/lowriskbotfinal.py). -/
def LowRiskBotFinal.estimate_consequence_severity (gamestate : GameState) (move : Move) : ℚ :=
  match move with
  | .RegularMove card0 => SchnapsenTrickScorer.rank_to_points card0.rank
  | .Marriage suit _ _ => SchnapsenTrickScorer.marriage_pending_points suit gamestate
  | .TrumpExchange _ => 1
  | .UnknownMove => 0

/-- `LowRiskBotFinal.evaluate_risk`: severity times probability times the
bot's current risk tolerance. -/
def LowRiskBotFinal.evaluate_risk (self : LowRiskBotFinal) (gamestate : GameState) (move : Move) : ℚ :=
  let probability_of_consequence := LowRiskBotFinal.estimate_probability_of_consequence gamestate move
  let consequence_severity := LowRiskBotFinal.estimate_consequence_severity gamestate move
  consequence_severity * probability_of_consequence * self.risk_tolerance

/-- C5: For every move and every sampled state, the risk penalty equals the
product severity(move, state) × probability-of-adverse-outcome(move, state)
× the agent's current risk tolerance, the tolerance being the one stored in
the agent's state at call time — for all three agent variants. -/
theorem C5_risk_formula :
    (∀ (b : MidRiskBot) (gs : GameState) (m : Move),
        b.evaluate_risk gs m =
          MidRiskBot.estimate_consequence_severity gs m *
            MidRiskBot.estimate_probability_of_consequence gs m *
            b.risk_tolerance) ∧
    (∀ (b : HighRiskBotFinal) (gs : GameState) (m : Move),
        b.evaluate_risk gs m =
          HighRiskBotFinal.estimate_consequence_severity gs m *
            HighRiskBotFinal.estimate_probability_of_consequence gs m *
            b.risk_tolerance) ∧
    (∀ (b : LowRiskBotFinal) (gs : GameState) (m : Move),
        b.evaluate_risk gs m =
          LowRiskBotFinal.estimate_consequence_severity gs m *
            LowRiskBotFinal.estimate_probability_of_consequence gs m *
            b.risk_tolerance) :=
  ⟨fun _ _ _ => rfl, fun _ _ _ => rfl, fun _ _ _ => rfl⟩

end RiskEvaluators

section ProbabilityClaims

/-- The three bots' probability estimators are the same function (the source
files are near-duplicates). -/
lemma HighRiskBotFinal.high_prob_eq_mid :
    HighRiskBotFinal.estimate_probability_of_consequence =
      MidRiskBot.estimate_probability_of_consequence := by
  funext gs m; cases m <;> rfl

/-- The three bots' probability estimators are the same function (the source
files are near-duplicates). -/
lemma LowRiskBotFinal.low_prob_eq_mid :
    LowRiskBotFinal.estimate_probability_of_consequence =
      MidRiskBot.estimate_probability_of_consequence := by
  funext gs m; cases m <;> rfl

/-- On an empty opponent hand the regular-move probability is 0. -/
lemma MidRiskBot.prob_regular_empty (gs : GameState) (c : Card)
    (h : gs.follower.hand = []) :
    MidRiskBot.estimate_probability_of_consequence gs (.RegularMove c) = 0 := by
  simp [MidRiskBot.estimate_probability_of_consequence, h]

/-- On a non-empty opponent hand the regular-move probability is the count of
strictly higher-ranked opponent cards over the hand size. -/
lemma MidRiskBot.prob_regular_fraction (gs : GameState) (c : Card)
    (h : gs.follower.hand ≠ []) :
    MidRiskBot.estimate_probability_of_consequence gs (.RegularMove c) =
      ((gs.follower.hand.countP
          (fun card => decide (c.rank.value < card.rank.value))) : ℚ) /
        (gs.follower.hand.length : ℚ) := by
  simp [MidRiskBot.estimate_probability_of_consequence, h,
    List.countP_eq_length_filter]

/-- A regular move whose card strictly outranks every opponent card has
probability 0. -/
lemma MidRiskBot.prob_regular_outranks (gs : GameState) (c : Card)
    (h : ∀ card ∈ gs.follower.hand, card.rank.value < c.rank.value) :
    MidRiskBot.estimate_probability_of_consequence gs (.RegularMove c) = 0 := by
  have hfilter : gs.follower.hand.filter
      (fun card => decide (c.rank.value < card.rank.value)) = [] := by
    rw [List.filter_eq_nil_iff]
    intro a ha
    simp only [decide_eq_true_eq, not_lt]
    exact le_of_lt (h a ha)
  rcases heq : gs.follower.hand with _ | ⟨x, xs⟩
  · simp [MidRiskBot.estimate_probability_of_consequence, heq]
  · simp only [MidRiskBot.estimate_probability_of_consequence, heq]
    rw [heq] at hfilter
    simp [hfilter]

/-- C6: For every RegularPlay move and every sampled state, in every agent
variant, the probability-of-adverse-outcome equals the fraction of the
opponent's hand strictly higher-ranked than the played card, is 0 when the
opponent's hand is empty, and in particular is 0 whenever the played card
strictly outranks every card in the opponent's hand. -/
theorem C6_regular_probability :
    (∀ (gs : GameState) (c : Card),
      (gs.follower.hand = [] →
        MidRiskBot.estimate_probability_of_consequence gs (.RegularMove c) = 0) ∧
      (gs.follower.hand ≠ [] →
        MidRiskBot.estimate_probability_of_consequence gs (.RegularMove c) =
          ((gs.follower.hand.countP
              (fun card => decide (c.rank.value < card.rank.value))) : ℚ) /
            (gs.follower.hand.length : ℚ)) ∧
      ((∀ card ∈ gs.follower.hand, card.rank.value < c.rank.value) →
        MidRiskBot.estimate_probability_of_consequence gs (.RegularMove c) = 0)) ∧
    (∀ (gs : GameState) (c : Card),
      (gs.follower.hand = [] →
        HighRiskBotFinal.estimate_probability_of_consequence gs (.RegularMove c) = 0) ∧
      (gs.follower.hand ≠ [] →
        HighRiskBotFinal.estimate_probability_of_consequence gs (.RegularMove c) =
          ((gs.follower.hand.countP
              (fun card => decide (c.rank.value < card.rank.value))) : ℚ) /
            (gs.follower.hand.length : ℚ)) ∧
      ((∀ card ∈ gs.follower.hand, card.rank.value < c.rank.value) →
        HighRiskBotFinal.estimate_probability_of_consequence gs (.RegularMove c) = 0)) ∧
    (∀ (gs : GameState) (c : Card),
      (gs.follower.hand = [] →
        LowRiskBotFinal.estimate_probability_of_consequence gs (.RegularMove c) = 0) ∧
      (gs.follower.hand ≠ [] →
        LowRiskBotFinal.estimate_probability_of_consequence gs (.RegularMove c) =
          ((gs.follower.hand.countP
              (fun card => decide (c.rank.value < card.rank.value))) : ℚ) /
            (gs.follower.hand.length : ℚ)) ∧
      ((∀ card ∈ gs.follower.hand, card.rank.value < c.rank.value) →
        LowRiskBotFinal.estimate_probability_of_consequence gs (.RegularMove c) = 0)) := by
  refine ⟨?_, ?_, ?_⟩ <;> intro gs c
  · exact ⟨MidRiskBot.prob_regular_empty gs c,
      MidRiskBot.prob_regular_fraction gs c,
      MidRiskBot.prob_regular_outranks gs c⟩
  · rw [HighRiskBotFinal.high_prob_eq_mid]
    exact ⟨MidRiskBot.prob_regular_empty gs c,
      MidRiskBot.prob_regular_fraction gs c,
      MidRiskBot.prob_regular_outranks gs c⟩
  · rw [LowRiskBotFinal.low_prob_eq_mid]
    exact ⟨MidRiskBot.prob_regular_empty gs c,
      MidRiskBot.prob_regular_fraction gs c,
      MidRiskBot.prob_regular_outranks gs c⟩

/-- Witness for C6: a ten beats the whole opponent hand of a jack, so the
probability is 0; with a king in hand it is 1/2 of a two-card hand. -/
theorem C6_regular_probability_witness :
    MidRiskBot.estimate_probability_of_consequence
        { follower := { hand := [{ rank := .JACK, suit := .HEARTS }] },
          trump_suit := .HEARTS }
        (.RegularMove { rank := .TEN, suit := .SPADES }) = 0 := by
  exact (C6_regular_probability.1
      { follower := { hand := [{ rank := .JACK, suit := .HEARTS }] },
        trump_suit := .HEARTS }
      { rank := .TEN, suit := .SPADES }).2.2
    (by intro card hc; simp at hc; subst hc; decide)

end ProbabilityClaims

section MarriageProbability

/-- On a non-empty opponent hand the marriage probability is the count of
same-suit cards strictly above Queen plus the count of trump cards — the two
counts added without deduplication — divided by the hand size. -/
lemma MidRiskBot.prob_marriage_fraction (gs : GameState) (suit : Suit)
    (qc kc : Card) (h : gs.follower.hand ≠ []) :
    MidRiskBot.estimate_probability_of_consequence gs (.Marriage suit qc kc) =
      (((gs.follower.hand.countP
            (fun card => decide (card.suit = suit ∧ Rank.QUEEN.value < card.rank.value))) : ℚ) +
        ((gs.follower.hand.countP
            (fun card => decide (card.suit = gs.trump_suit))) : ℚ)) /
        (gs.follower.hand.length : ℚ) := by
  simp [MidRiskBot.estimate_probability_of_consequence, h,
    List.countP_eq_length_filter]

/-- A concrete state whose only opponent card is the King of trump: for the
trump-suit marriage both subsets count it, giving probability 2. -/
def doubleCountState : GameState :=
  { follower := { hand := [{ rank := .KING, suit := .HEARTS }] },
    trump_suit := .HEARTS }

/-- The trump-suit marriage move used in the double-counting example. -/
def doubleCountMarriage : Move :=
  .Marriage .HEARTS { rank := .QUEEN, suit := .HEARTS } { rank := .KING, suit := .HEARTS }

/-- C7: For every Marriage move and every sampled state with a non-empty
opponent hand, in every agent variant, the probability-of-adverse-outcome
equals (count of opponent cards of the marriage's suit above Queen + count
of opponent trump cards) / hand size, without deduplication between the two
subsets; consequently a single opponent card can be counted twice and the
result can exceed 1, as it does on `doubleCountState`. -/
theorem C7_marriage_probability :
    (∀ (gs : GameState) (suit : Suit) (qc kc : Card), gs.follower.hand ≠ [] →
      MidRiskBot.estimate_probability_of_consequence gs (.Marriage suit qc kc) =
        (((gs.follower.hand.countP
              (fun card => decide (card.suit = suit ∧ Rank.QUEEN.value < card.rank.value))) : ℚ) +
          ((gs.follower.hand.countP
              (fun card => decide (card.suit = gs.trump_suit))) : ℚ)) /
          (gs.follower.hand.length : ℚ)) ∧
    (∀ (gs : GameState) (suit : Suit) (qc kc : Card), gs.follower.hand ≠ [] →
      HighRiskBotFinal.estimate_probability_of_consequence gs (.Marriage suit qc kc) =
        (((gs.follower.hand.countP
              (fun card => decide (card.suit = suit ∧ Rank.QUEEN.value < card.rank.value))) : ℚ) +
          ((gs.follower.hand.countP
              (fun card => decide (card.suit = gs.trump_suit))) : ℚ)) /
          (gs.follower.hand.length : ℚ)) ∧
    (∀ (gs : GameState) (suit : Suit) (qc kc : Card), gs.follower.hand ≠ [] →
      LowRiskBotFinal.estimate_probability_of_consequence gs (.Marriage suit qc kc) =
        (((gs.follower.hand.countP
              (fun card => decide (card.suit = suit ∧ Rank.QUEEN.value < card.rank.value))) : ℚ) +
          ((gs.follower.hand.countP
              (fun card => decide (card.suit = gs.trump_suit))) : ℚ)) /
          (gs.follower.hand.length : ℚ)) ∧
    MidRiskBot.estimate_probability_of_consequence doubleCountState doubleCountMarriage = 2 ∧
    1 < MidRiskBot.estimate_probability_of_consequence doubleCountState doubleCountMarriage := by
  refine ⟨MidRiskBot.prob_marriage_fraction, ?_, ?_, ?_, ?_⟩
  · rw [HighRiskBotFinal.high_prob_eq_mid]; exact MidRiskBot.prob_marriage_fraction
  · rw [LowRiskBotFinal.low_prob_eq_mid]; exact MidRiskBot.prob_marriage_fraction
  · norm_num [MidRiskBot.estimate_probability_of_consequence, doubleCountState,
      doubleCountMarriage, List.filter, Rank.value]
  · norm_num [MidRiskBot.estimate_probability_of_consequence, doubleCountState,
      doubleCountMarriage, List.filter, Rank.value]

/-- Witness for C7 at the double-counting state: the formula instance and
the value 2 agree there. -/
theorem C7_marriage_probability_witness :
    MidRiskBot.estimate_probability_of_consequence doubleCountState doubleCountMarriage =
      (((doubleCountState.follower.hand.countP
            (fun card => decide (card.suit = Suit.HEARTS ∧ Rank.QUEEN.value < card.rank.value))) : ℚ) +
        ((doubleCountState.follower.hand.countP
            (fun card => decide (card.suit = doubleCountState.trump_suit))) : ℚ)) /
        (doubleCountState.follower.hand.length : ℚ) := by
  exact C7_marriage_probability.1 doubleCountState .HEARTS
    { rank := .QUEEN, suit := .HEARTS } { rank := .KING, suit := .HEARTS }
    (by decide)

end MarriageProbability

section UnknownMoveDefaults

/-- C9: For every move that is not a RegularPlay, Marriage, or
TrumpExchange, in every agent variant, probability estimation returns the
default 0.5, severity estimation returns the default 0, and therefore the
risk penalty is 0 regardless of the sampled state and tolerance.  (In the
embedding all evaluators are total functions, reflecting that the Python
fall-through defaults raise nothing.) -/
theorem C9_unknown_move_defaults :
    (∀ (gs : GameState),
      MidRiskBot.estimate_probability_of_consequence gs .UnknownMove = 1/2 ∧
      MidRiskBot.estimate_consequence_severity gs .UnknownMove = 0 ∧
      ∀ (b : MidRiskBot), b.evaluate_risk gs .UnknownMove = 0) ∧
    (∀ (gs : GameState),
      HighRiskBotFinal.estimate_probability_of_consequence gs .UnknownMove = 1/2 ∧
      HighRiskBotFinal.estimate_consequence_severity gs .UnknownMove = 0 ∧
      ∀ (b : HighRiskBotFinal), b.evaluate_risk gs .UnknownMove = 0) ∧
    (∀ (gs : GameState),
      LowRiskBotFinal.estimate_probability_of_consequence gs .UnknownMove = 1/2 ∧
      LowRiskBotFinal.estimate_consequence_severity gs .UnknownMove = 0 ∧
      ∀ (b : LowRiskBotFinal), b.evaluate_risk gs .UnknownMove = 0) := by
  refine ⟨fun gs => ⟨rfl, rfl, fun b => ?_⟩,
    fun gs => ⟨rfl, rfl, fun b => ?_⟩,
    fun gs => ⟨rfl, rfl, fun b => ?_⟩⟩
  · simp [MidRiskBot.evaluate_risk, MidRiskBot.estimate_consequence_severity]
  · simp [HighRiskBotFinal.evaluate_risk, HighRiskBotFinal.estimate_consequence_severity]
  · simp [LowRiskBotFinal.evaluate_risk, LowRiskBotFinal.estimate_consequence_severity]

end UnknownMoveDefaults

section SelectionDefs

/-- Python's built-in `max` on a list of numbers: `none` for the empty list
(where Python raises `ValueError`), otherwise the fold of binary `max`. -/
def pymax : List ℚ → Option ℚ
  | [] => none
  | v :: rest => some (rest.foldl max v)

/-- Python's `list.index`: the position of the first occurrence of `x`. -/
def pyindex : List ℚ → ℚ → Nat
  | [], _ => 0
  | v :: rest, x => if v = x then 0 else pyindex rest x + 1

/-- The running-best pattern shared by the bots' candidate loops:
accumulator `(best_move, best_score)` starting from `(None, -inf)`, a
candidate displacing the incumbent only when its score is strictly
greater. -/
def running_best_aux {α : Type} : List (α × ℚ) → Option α → WithBot ℚ → Option α
  | [], best_move, _ => best_move
  | (m, v) :: rest, best_move, best_score =>
    if best_score < (v : WithBot ℚ) then running_best_aux rest (some m) (v : WithBot ℚ)
    else running_best_aux rest best_move best_score

/-- Running best over a whole candidate/score list. -/
def running_best {α : Type} (pairs : List (α × ℚ)) : Option α :=
  running_best_aux pairs none ⊥

/-- First maximum of a candidate/score list, ties resolved toward the
earlier element: the specification-side description of the loops above. -/
def first_best {α : Type} : List (α × ℚ) → Option (α × ℚ)
  | [] => none
  | (m, v) :: rest =>
    match first_best rest with
    | none => some (m, v)
    | some (m', v') => if v < v' then some (m', v') else some (m, v)

/-- `HighRiskBotFinal.calculated_points_card`: the bot's own points table
`{ACE: 11, TEN: 10, KING: 4, QUEEN: 3, JACK: 2}` (the `.get(…, 0)` default
is unreachable for a schnapsen deck). -/
def HighRiskBotFinal.calculated_points_card (card : Card) : ℚ :=
  match card.rank with
  | .ACE => 11
  | .TEN => 10
  | .KING => 4
  | .QUEEN => 3
  | .JACK => 2

/-- `HighRiskBotFinal.__high_reward_evaluation`: a regular move is worth its
points-table value; a marriage is worth 40 when it is the trump-suit
Queen+King pair and 20 otherwise; anything else is worth 0. -/
def HighRiskBotFinal.high_reward_evaluation (perspective : PlayerPerspective) (move : Move) : ℚ :=
  match move with
  | .RegularMove card0 => HighRiskBotFinal.calculated_points_card card0
  | .Marriage suit queen_card king_card =>
      if suit = perspective.get_trump_suit ∧ queen_card.rank = Rank.QUEEN ∧
          king_card.rank = Rank.KING then 40
      else 20
  | _ => 0

/-- `HighRiskBotFinal.get_move`: maps `__high_reward_evaluation` over the
shuffled candidates, takes the Python `max` of the resulting list and
returns the candidate at the first index attaining it (`list.index`).
No sampling, risk term or opponent term is involved.  `none` models the
`ValueError` that `max` raises on an empty candidate list. -/
def HighRiskBotFinal.get_move (self : HighRiskBotFinal) (perspective : PlayerPerspective) :
    Option Move :=
  let moves := perspective.valid_moves
  let high_rewarded_value := moves.map (HighRiskBotFinal.high_reward_evaluation perspective)
  match pymax high_rewarded_value with
  | none => none
  | some best_high_reward => moves.get? (pyindex high_rewarded_value best_high_reward)

/-- `HighRiskBotFinal.__evaluate_points_accumulated` (same body as
`MidRiskBot._evaluate_points_accumulated`; defined but never called by
`HighRiskBotFinal.get_move`). -/
def HighRiskBotFinal.evaluate_points_accumulated (gamestate : GameState) (move : Move) : ℚ :=
  match move with
  | .RegularMove card0 => SchnapsenTrickScorer.rank_to_points card0.rank
  | .Marriage suit _ _ => SchnapsenTrickScorer.marriage_pending_points suit gamestate
  | _ => 0

/-- `HighRiskBotFinal.get_average_value_card`: the unseen cards are the
initial deck minus all seen cards (the rules engine's deck difference,
modelled as list filtering); their trick values are summed and divided by
their number, and an empty unseen set yields 0. -/
def HighRiskBotFinal.get_average_value_card (perspective : PlayerPerspective) : ℚ :=
  let unseen_cards := perspective.get_initial_deck.filter
    (fun card => decide (card ∉ perspective.seen_cards))
  let total_points :=
    (unseen_cards.map (fun card => SchnapsenTrickScorer.rank_to_points card.rank)).sum
  if unseen_cards.isEmpty then 0 else total_points / (unseen_cards.length : ℚ)

/-- `HighRiskBotFinal.estimate_marriage_points`: for every suit of which the
opponent's won pile holds a Queen or King, add half the marriage's pending
points scored against the phase-two state snapshot. -/
def HighRiskBotFinal.estimate_marriage_points (perspective : PlayerPerspective) : ℚ :=
  (([Suit.HEARTS, Suit.DIAMONDS, Suit.SPADES, Suit.CLUBS].map (fun suit =>
    if perspective.get_opponent_won_cards.any
        (fun card => decide ((card.rank = Rank.QUEEN ∨ card.rank = Rank.KING) ∧
          card.suit = suit)) then
      SchnapsenTrickScorer.marriage_pending_points suit
          perspective.get_state_in_phase_two * (1/2)
    else 0)).sum)

/-- `HighRiskBotFinal.estimate_opponents_potential_score`: banked trick
points of the opponent's won cards, plus (unconditionally, unlike
LowRiskBotFinal) the unknown-hand estimate
`unknown_cards_count * average_value_card`, plus the marriage estimate. -/
def HighRiskBotFinal.estimate_opponents_potential_score (perspective : PlayerPerspective) : ℚ :=
  let banked := (perspective.get_opponent_won_cards.map
    (fun card => SchnapsenTrickScorer.rank_to_points card.rank)).sum
  let unknown_cards_count : Int :=
    (perspective.get_opponent_hand_in_phase_two.length : Int) -
      (perspective.get_known_cards_of_opponent_hand.length : Int)
  let average_value_card := HighRiskBotFinal.get_average_value_card perspective
  banked + (unknown_cards_count : ℚ) * average_value_card +
    HighRiskBotFinal.estimate_marriage_points perspective

end SelectionDefs

section MidLowDecision

/-- The inner sampling loop of `MidRiskBot.get_move` for one candidate:
`num_samples` iterations each draw a fresh state with `leader_move=None`
(regardless of whether the bot is following) and accumulate
`reward - risk`; the total is then divided by `num_samples`.  `base` is the
index of the first random draw this candidate consumes. -/
def MidRiskBot.average_net_gain (self : MidRiskBot) (perspective : PlayerPerspective)
    (move : Move) (base : Nat) : ℚ :=
  let net_gain := (List.range self.num_samples.toNat).foldl
    (fun acc k =>
      let gamestate := perspective.make_assumption none (base + k)
      let reward := MidRiskBot.evaluate_points_accumulated gamestate move
      let risk := self.evaluate_risk gamestate move
      acc + (reward - risk)) 0
  net_gain / (self.num_samples : ℚ)

/-- The candidate loop of `MidRiskBot.get_move`: running best under strict
`>` starting from `(None, -inf)`, the draw counter advancing by
`num_samples` per candidate. -/
def MidRiskBot.get_move_loop (self : MidRiskBot) (perspective : PlayerPerspective) :
    List Move → Nat → Option Move → WithBot ℚ → Option Move
  | [], _, best_move, _ => best_move
  | move :: rest, base, best_move, best_net_gain =>
    let average_net_gain := self.average_net_gain perspective move base
    if best_net_gain < (average_net_gain : WithBot ℚ) then
      self.get_move_loop perspective rest (base + self.num_samples.toNat)
        (some move) (average_net_gain : WithBot ℚ)
    else
      self.get_move_loop perspective rest (base + self.num_samples.toNat)
        best_move best_net_gain

/-- `MidRiskBot.get_move`: evaluates the shuffled candidates and returns the
running best (`None` when there are no candidates).  The `leader_move`
argument is accepted but never used — sampling always passes
`leader_move=None`. -/
def MidRiskBot.get_move (self : MidRiskBot) (perspective : PlayerPerspective)
    (leader_move : Option Move) : Option Move :=
  self.get_move_loop perspective perspective.valid_moves 0 none ⊥

/-- `LowRiskBotFinal.get_average_value_card`: the unseen cards are the
initial-deck cards not among the seen cards (computed by list
comprehension in the source); their trick values are summed and divided by
their number, and an empty unseen list yields 0. -/
def LowRiskBotFinal.get_average_value_card (perspective : PlayerPerspective) : ℚ :=
  let unseen_cards := perspective.get_initial_deck.filter
    (fun card => decide (card ∉ perspective.seen_cards))
  let total_points :=
    (unseen_cards.map (fun card => SchnapsenTrickScorer.rank_to_points card.rank)).sum
  if unseen_cards.isEmpty then 0 else total_points / (unseen_cards.length : ℚ)

/-- `LowRiskBotFinal.estimate_marriage_points`: 0 outside phase two;
otherwise, for every suit of which the opponent's won pile holds a Queen or
King, half the marriage's pending points scored against the phase-two state
snapshot. -/
def LowRiskBotFinal.estimate_marriage_points (perspective : PlayerPerspective) : ℚ :=
  if perspective.phase_two = false then 0
  else
    (([Suit.HEARTS, Suit.DIAMONDS, Suit.SPADES, Suit.CLUBS].map (fun suit =>
      if perspective.get_opponent_won_cards.any
          (fun card => decide ((card.rank = Rank.QUEEN ∨ card.rank = Rank.KING) ∧
            card.suit = suit)) then
        SchnapsenTrickScorer.marriage_pending_points suit
            perspective.get_state_in_phase_two * (1/2)
      else 0)).sum)

/-- `LowRiskBotFinal.estimate_opponents_potential_score`: banked trick
points of the opponent's won cards; in phase two additionally
`unknown_cards_count * average_card_value`; plus the marriage estimate. -/
def LowRiskBotFinal.estimate_opponents_potential_score (perspective : PlayerPerspective) : ℚ :=
  let banked := (perspective.get_opponent_won_cards.map
    (fun card => SchnapsenTrickScorer.rank_to_points card.rank)).sum
  let with_unknown :=
    if perspective.phase_two then
      let unknown_cards_count : Int :=
        (perspective.get_opponent_hand_in_phase_two.length : Int) -
          (perspective.get_known_cards_of_opponent_hand.length : Int)
      let average_card_value := LowRiskBotFinal.get_average_value_card perspective
      banked + (unknown_cards_count : ℚ) * average_card_value
    else banked
  with_unknown + LowRiskBotFinal.estimate_marriage_points perspective

/-- `LowRiskBotFinal._evaluate_points_accumulated` (same body as
`MidRiskBot._evaluate_points_accumulated`). -/
def LowRiskBotFinal.evaluate_points_accumulated (gamestate : GameState) (move : Move) : ℚ :=
  match move with
  | .RegularMove card0 => SchnapsenTrickScorer.rank_to_points card0.rank
  | .Marriage suit _ _ => SchnapsenTrickScorer.marriage_pending_points suit gamestate
  | _ => 0

/-- The inner sampling loop of `LowRiskBotFinal.evaluate_moves_as_leader`
for one candidate: `num_samples` iterations each draw a fresh state with
`leader_move=None` and accumulate `(reward - risk) - opp`, where `opp` is
the opponent-potential value computed once before the candidate loop.  The
total is compared directly (no averaging). -/
def LowRiskBotFinal.net_gain_as_leader (self : LowRiskBotFinal)
    (perspective : PlayerPerspective) (opp : ℚ) (move : Move) (base : Nat) : ℚ :=
  (List.range self.num_samples.toNat).foldl
    (fun acc k =>
      let gamestate := perspective.make_assumption none (base + k)
      let reward := LowRiskBotFinal.evaluate_points_accumulated gamestate move
      let risk := self.evaluate_risk gamestate move
      acc + ((reward - risk) - opp)) 0

/-- The candidate loop of `LowRiskBotFinal.evaluate_moves_as_leader`. -/
def LowRiskBotFinal.leader_loop (self : LowRiskBotFinal) (perspective : PlayerPerspective)
    (opp : ℚ) : List Move → Nat → Option Move → WithBot ℚ → Option Move
  | [], _, best_move, _ => best_move
  | move :: rest, base, best_move, best_net_gain =>
    let net_gain := self.net_gain_as_leader perspective opp move base
    if best_net_gain < (net_gain : WithBot ℚ) then
      self.leader_loop perspective opp rest (base + self.num_samples.toNat)
        (some move) (net_gain : WithBot ℚ)
    else
      self.leader_loop perspective opp rest (base + self.num_samples.toNat)
        best_move best_net_gain

/-- `LowRiskBotFinal.evaluate_moves_as_leader`: computes the opponent's
potential score once, then runs the running-best candidate loop. -/
def LowRiskBotFinal.evaluate_moves_as_leader (self : LowRiskBotFinal)
    (moves : List Move) (perspective : PlayerPerspective) : Option Move :=
  let opponents_potential_score := LowRiskBotFinal.estimate_opponents_potential_score perspective
  self.leader_loop perspective opponents_potential_score moves 0 none ⊥

/-- The inner sampling loop of `LowRiskBotFinal.evaluate_moves_as_follower`
for one candidate: identical to the leader loop except that every draw fixes
the opponent's leading move. -/
def LowRiskBotFinal.score_as_follower (self : LowRiskBotFinal)
    (perspective : PlayerPerspective) (opp : ℚ) (leader_move : Move) (move : Move)
    (base : Nat) : ℚ :=
  (List.range self.num_samples.toNat).foldl
    (fun acc k =>
      let gamestate := perspective.make_assumption (some leader_move) (base + k)
      let reward := LowRiskBotFinal.evaluate_points_accumulated gamestate move
      let risk := self.evaluate_risk gamestate move
      acc + ((reward - risk) - opp)) 0

/-- The candidate loop of `LowRiskBotFinal.evaluate_moves_as_follower`. -/
def LowRiskBotFinal.follower_loop (self : LowRiskBotFinal) (perspective : PlayerPerspective)
    (opp : ℚ) (leader_move : Move) :
    List Move → Nat → Option Move → WithBot ℚ → Option Move
  | [], _, chosen_move, _ => chosen_move
  | move :: rest, base, chosen_move, best_score =>
    let score := self.score_as_follower perspective opp leader_move move base
    if best_score < (score : WithBot ℚ) then
      self.follower_loop perspective opp leader_move rest (base + self.num_samples.toNat)
        (some move) (score : WithBot ℚ)
    else
      self.follower_loop perspective opp leader_move rest (base + self.num_samples.toNat)
        chosen_move best_score

/-- `LowRiskBotFinal.evaluate_moves_as_follower`: computes the opponent's
potential score once, then runs the running-best candidate loop with the
leader's move fixed in every draw. -/
def LowRiskBotFinal.evaluate_moves_as_follower (self : LowRiskBotFinal)
    (moves : List Move) (perspective : PlayerPerspective) (leader_move : Move) :
    Option Move :=
  let opponents_potential_score := LowRiskBotFinal.estimate_opponents_potential_score perspective
  self.follower_loop perspective opponents_potential_score leader_move moves 0 none ⊥

/-- `LowRiskBotFinal.get_move`: dispatches to the leader or follower
evaluation depending on whether a leading move was given, appends the chosen
move (possibly `None`) to `my_past_moves`, and returns it. -/
def LowRiskBotFinal.get_move (self : LowRiskBotFinal) (perspective : PlayerPerspective)
    (leader_move : Option Move) : LowRiskBotFinal × Option Move :=
  let moves := perspective.valid_moves
  let chosen_move :=
    match leader_move with
    | none => self.evaluate_moves_as_leader moves perspective
    | some lm => self.evaluate_moves_as_follower moves perspective lm
  ({ self with my_past_moves := self.my_past_moves ++ [chosen_move] }, chosen_move)

end MidLowDecision

section SelectionLemmas

/-- One-step unfolding of `first_best` on a cons cell. -/
lemma first_best_cons {α : Type} (m : α) (v : ℚ) (l : List (α × ℚ)) :
    first_best ((m, v) :: l) =
      match first_best l with
      | none => some (m, v)
      | some (m', v') => if v < v' then some (m', v') else some (m, v) := rfl

/-- `first_best` of a non-empty list is defined and its score dominates the
head's score. -/
lemma first_best_score_le {α : Type} (m : α) (v : ℚ) (rest : List (α × ℚ)) :
    ∃ c d, first_best ((m, v) :: rest) = some (c, d) ∧ v ≤ d := by
  cases h : first_best rest with
  | none => exact ⟨m, v, by rw [first_best_cons, h], le_refl v⟩
  | some md =>
    rcases md with ⟨m', v'⟩
    by_cases hv : v < v'
    · exact ⟨m', v', by rw [first_best_cons, h]; simp [hv], le_of_lt hv⟩
    · exact ⟨m, v, by rw [first_best_cons, h]; simp [hv], le_refl v⟩

/-- The running-best fold started on an incumbent `(m, v)` computes the
first maximum of the list headed by `(m, v)`. -/
lemma running_best_aux_eq {α : Type} :
    ∀ (l : List (α × ℚ)) (m : α) (v : ℚ),
      running_best_aux l (some m) (v : WithBot ℚ) =
        (first_best ((m, v) :: l)).map Prod.fst := by
  intro l
  induction l with
  | nil => intro m v; simp [running_best_aux, first_best]
  | cons x rest ih =>
    rcases x with ⟨m', v'⟩
    intro m v
    by_cases hv : v < v'
    · have hlt : (v : WithBot ℚ) < (v' : WithBot ℚ) := by exact_mod_cast hv
      simp only [running_best_aux]
      rw [if_pos hlt, ih]
      obtain ⟨c, d, hcd, hvd⟩ := first_best_score_le m' v' rest
      have hvd2 : v < d := lt_of_lt_of_le hv hvd
      rw [hcd]
      have houter : first_best ((m, v) :: (m', v') :: rest) = some (c, d) := by
        rw [first_best_cons, hcd]
        simp [hvd2]
      rw [houter]
    · have hnlt : ¬ (v : WithBot ℚ) < (v' : WithBot ℚ) := by exact_mod_cast hv
      simp only [running_best_aux]
      rw [if_neg hnlt, ih]
      cases hfr : first_best rest with
      | none =>
          rw [first_best_cons, hfr, first_best_cons,
            show first_best ((m', v') :: rest) =
                some (m', v') from by rw [first_best_cons, hfr]]
          simp [hv]
      | some ab =>
        rcases ab with ⟨a, b⟩
        by_cases hb : v' < b
        · rw [first_best_cons, hfr, first_best_cons,
            show first_best ((m', v') :: rest) =
                some (a, b) from by rw [first_best_cons, hfr]; simp [hb]]
        · have hvb : ¬ v < b :=
            not_lt.mpr (le_trans (not_lt.mp hb) (not_lt.mp hv))
          rw [first_best_cons, hfr, first_best_cons,
            show first_best ((m', v') :: rest) =
                some (m', v') from by rw [first_best_cons, hfr]; simp [hb]]
          simp [hv, hvb]

/-- The running best of a candidate/score list is its first maximum. -/
lemma running_best_eq_first_best {α : Type} (l : List (α × ℚ)) :
    running_best l = (first_best l).map Prod.fst := by
  cases l with
  | nil => rfl
  | cons x rest =>
    rcases x with ⟨m, v⟩
    have hbot : (⊥ : WithBot ℚ) < (v : WithBot ℚ) := WithBot.bot_lt_coe v
    rw [running_best]
    simp only [running_best_aux]
    rw [if_pos hbot]
    exact running_best_aux_eq rest m v

/-- `first_best` picks an element whose score is a maximum of the list and
which strictly dominates every earlier element's score. -/
lemma first_best_spec {α : Type} :
    ∀ (pairs : List (α × ℚ)), pairs ≠ [] →
      ∃ i c, pairs.get? i = some c ∧ first_best pairs = some c ∧
        (∀ j w, pairs.get? j = some w → w.2 ≤ c.2) ∧
        (∀ j w, j < i → pairs.get? j = some w → w.2 < c.2) := by
  intro pairs
  induction pairs with
  | nil => intro h; exact absurd rfl h
  | cons x rest ih =>
    rcases x with ⟨m, v⟩
    intro _
    by_cases hrest : rest = []
    · subst hrest
      refine ⟨0, (m, v), rfl, by rw [first_best_cons]; rfl, ?_, ?_⟩
      · intro j w hw
        cases j with
        | zero =>
            simp only [List.get?_cons_zero, Option.some.injEq] at hw
            rw [← hw]
        | succ k => simp at hw
      · intro j w hj _; omega
    · obtain ⟨i', c', hget, hfb, hub, hstrict⟩ := ih hrest
      rcases c' with ⟨m', v'⟩
      by_cases hv : v < v'
      · refine ⟨i' + 1, (m', v'), ?_, ?_, ?_, ?_⟩
        · simpa using hget
        · rw [first_best_cons, hfb]
          simp [hv]
        · intro j w hw
          cases j with
          | zero =>
              simp only [List.get?_cons_zero, Option.some.injEq] at hw
              rw [← hw]
              exact le_of_lt hv
          | succ k =>
              simp only [List.get?_cons_succ] at hw
              exact hub k w hw
        · intro j w hj hw
          cases j with
          | zero =>
              simp only [List.get?_cons_zero, Option.some.injEq] at hw
              rw [← hw]
              exact hv
          | succ k =>
              simp only [List.get?_cons_succ] at hw
              exact hstrict k w (by omega) hw
      · refine ⟨0, (m, v), rfl, ?_, ?_, ?_⟩
        · rw [first_best_cons, hfb]
          simp [hv]
        · intro j w hw
          cases j with
          | zero =>
              simp only [List.get?_cons_zero, Option.some.injEq] at hw
              rw [← hw]
          | succ k =>
              simp only [List.get?_cons_succ] at hw
              exact le_trans (hub k w hw) (not_lt.mp hv)
        · intro j w hj _; omega

/-- The fold of binary `max` bounds every element and is attained. -/
lemma foldl_max_spec :
    ∀ (l : List ℚ) (v : ℚ),
      (v ≤ l.foldl max v ∧ ∀ w ∈ l, w ≤ l.foldl max v) ∧
        (l.foldl max v = v ∨ l.foldl max v ∈ l) := by
  intro l
  induction l with
  | nil => intro v; simp
  | cons x rest ih =>
    intro v
    have h := ih (max v x)
    simp only [List.foldl_cons]
    refine ⟨⟨le_trans (le_max_left v x) h.1.1, ?_⟩, ?_⟩
    · intro w hw
      rcases List.mem_cons.mp hw with hwx | hwr
      · rw [hwx]; exact le_trans (le_max_right v x) h.1.1
      · exact h.1.2 w hwr
    · rcases h.2 with heq | hmem
      · rcases max_choice v x with hm | hm
        · left; rw [heq, hm]
        · right; rw [heq, hm]; exact List.mem_cons_self x rest
      · right; exact List.mem_cons_of_mem x hmem

/-- Python's `max` of a non-empty list is a member and an upper bound. -/
lemma pymax_spec (l : List ℚ) (h : l ≠ []) :
    ∃ M, pymax l = some M ∧ M ∈ l ∧ ∀ w ∈ l, w ≤ M := by
  cases l with
  | nil => exact absurd rfl h
  | cons v rest =>
    obtain ⟨⟨hv, hub⟩, hmem⟩ := foldl_max_spec rest v
    refine ⟨rest.foldl max v, rfl, ?_, ?_⟩
    · rcases hmem with heq | hm
      · rw [heq]; exact List.mem_cons_self v rest
      · exact List.mem_cons_of_mem v hm
    · intro w hw
      rcases List.mem_cons.mp hw with hwx | hwr
      · subst hwx; exact hv
      · exact hub w hwr

/-- Python's `list.index` finds the first occurrence. -/
lemma pyindex_spec :
    ∀ (l : List ℚ) (x : ℚ), x ∈ l →
      l.get? (pyindex l x) = some x ∧
        ∀ j w, j < pyindex l x → l.get? j = some w → w ≠ x := by
  intro l
  induction l with
  | nil => intro x hx; simp at hx
  | cons v rest ih =>
    intro x hx
    by_cases hv : v = x
    · subst hv
      refine ⟨by simp [pyindex], ?_⟩
      intro j w hj _
      simp [pyindex] at hj
    · have hxr : x ∈ rest := by
        rcases List.mem_cons.mp hx with h | h
        · exact absurd h.symm hv
        · exact h
      obtain ⟨hget, hstrict⟩ := ih x hxr
      refine ⟨?_, ?_⟩
      · simp only [pyindex, if_neg hv, List.get?_cons_succ]
        exact hget
      · intro j w hj hw
        cases j with
        | zero =>
            simp only [List.get?_cons_zero, Option.some.injEq] at hw
            rw [← hw]
            exact hv
        | succ k =>
            simp only [pyindex, if_neg hv] at hj
            simp only [List.get?_cons_succ] at hw
            exact hstrict k w (by omega) hw

end SelectionLemmas

section LoopBridges

/-- The candidate/score pairs `MidRiskBot.get_move` evaluates: candidate `k`
of the shuffled order is scored with draws starting at
`base + k·num_samples`. -/
def MidRiskBot.score_pairs (self : MidRiskBot) (perspective : PlayerPerspective) :
    List Move → Nat → List (Move × ℚ)
  | [], _ => []
  | move :: rest, base =>
    (move, self.average_net_gain perspective move base) ::
      self.score_pairs perspective rest (base + self.num_samples.toNat)

lemma MidRiskBot.score_pairs_map_fst (self : MidRiskBot) (perspective : PlayerPerspective) :
    ∀ (moves : List Move) (base : Nat),
      (self.score_pairs perspective moves base).map Prod.fst = moves := by
  intro moves
  induction moves with
  | nil => intro base; rfl
  | cons mv rest ih =>
      intro base
      simp only [MidRiskBot.score_pairs, List.map_cons, ih]

lemma MidRiskBot.get_move_loop_eq (self : MidRiskBot) (perspective : PlayerPerspective) :
    ∀ (moves : List Move) (base : Nat) (bm : Option Move) (bv : WithBot ℚ),
      self.get_move_loop perspective moves base bm bv =
        running_best_aux (self.score_pairs perspective moves base) bm bv := by
  intro moves
  induction moves with
  | nil => intros; rfl
  | cons mv rest ih =>
    intro base bm bv
    simp only [MidRiskBot.get_move_loop, MidRiskBot.score_pairs, running_best_aux]
    by_cases h : bv < ((self.average_net_gain perspective mv base : ℚ) : WithBot ℚ)
    · rw [if_pos h, if_pos h, ih]
    · rw [if_neg h, if_neg h, ih]

lemma MidRiskBot.get_move_eq_running_best (self : MidRiskBot)
    (perspective : PlayerPerspective) (leader_move : Option Move) :
    self.get_move perspective leader_move =
      running_best (self.score_pairs perspective perspective.valid_moves 0) := by
  rw [MidRiskBot.get_move, MidRiskBot.get_move_loop_eq]
  rfl

/-- The candidate/score pairs of `LowRiskBotFinal.evaluate_moves_as_leader`. -/
def LowRiskBotFinal.leader_score_pairs (self : LowRiskBotFinal)
    (perspective : PlayerPerspective) (opp : ℚ) :
    List Move → Nat → List (Move × ℚ)
  | [], _ => []
  | move :: rest, base =>
    (move, self.net_gain_as_leader perspective opp move base) ::
      self.leader_score_pairs perspective opp rest (base + self.num_samples.toNat)

lemma LowRiskBotFinal.leader_score_pairs_map_fst (self : LowRiskBotFinal)
    (perspective : PlayerPerspective) (opp : ℚ) :
    ∀ (moves : List Move) (base : Nat),
      (self.leader_score_pairs perspective opp moves base).map Prod.fst = moves := by
  intro moves
  induction moves with
  | nil => intro base; rfl
  | cons mv rest ih =>
      intro base
      simp only [LowRiskBotFinal.leader_score_pairs, List.map_cons, ih]

lemma LowRiskBotFinal.leader_loop_eq (self : LowRiskBotFinal)
    (perspective : PlayerPerspective) (opp : ℚ) :
    ∀ (moves : List Move) (base : Nat) (bm : Option Move) (bv : WithBot ℚ),
      self.leader_loop perspective opp moves base bm bv =
        running_best_aux (self.leader_score_pairs perspective opp moves base) bm bv := by
  intro moves
  induction moves with
  | nil => intros; rfl
  | cons mv rest ih =>
    intro base bm bv
    simp only [LowRiskBotFinal.leader_loop, LowRiskBotFinal.leader_score_pairs,
      running_best_aux]
    by_cases h : bv < ((self.net_gain_as_leader perspective opp mv base : ℚ) : WithBot ℚ)
    · rw [if_pos h, if_pos h, ih]
    · rw [if_neg h, if_neg h, ih]

lemma LowRiskBotFinal.evaluate_moves_as_leader_eq (self : LowRiskBotFinal)
    (moves : List Move) (perspective : PlayerPerspective) :
    self.evaluate_moves_as_leader moves perspective =
      running_best (self.leader_score_pairs perspective
        (LowRiskBotFinal.estimate_opponents_potential_score perspective) moves 0) := by
  rw [LowRiskBotFinal.evaluate_moves_as_leader, LowRiskBotFinal.leader_loop_eq]
  rfl

/-- The candidate/score pairs of `LowRiskBotFinal.evaluate_moves_as_follower`. -/
def LowRiskBotFinal.follower_score_pairs (self : LowRiskBotFinal)
    (perspective : PlayerPerspective) (opp : ℚ) (leader_move : Move) :
    List Move → Nat → List (Move × ℚ)
  | [], _ => []
  | move :: rest, base =>
    (move, self.score_as_follower perspective opp leader_move move base) ::
      self.follower_score_pairs perspective opp leader_move rest
        (base + self.num_samples.toNat)

lemma LowRiskBotFinal.follower_score_pairs_map_fst (self : LowRiskBotFinal)
    (perspective : PlayerPerspective) (opp : ℚ) (leader_move : Move) :
    ∀ (moves : List Move) (base : Nat),
      (self.follower_score_pairs perspective opp leader_move moves base).map Prod.fst =
        moves := by
  intro moves
  induction moves with
  | nil => intro base; rfl
  | cons mv rest ih =>
      intro base
      simp only [LowRiskBotFinal.follower_score_pairs, List.map_cons, ih]

lemma LowRiskBotFinal.follower_loop_eq (self : LowRiskBotFinal)
    (perspective : PlayerPerspective) (opp : ℚ) (leader_move : Move) :
    ∀ (moves : List Move) (base : Nat) (bm : Option Move) (bv : WithBot ℚ),
      self.follower_loop perspective opp leader_move moves base bm bv =
        running_best_aux
          (self.follower_score_pairs perspective opp leader_move moves base) bm bv := by
  intro moves
  induction moves with
  | nil => intros; rfl
  | cons mv rest ih =>
    intro base bm bv
    simp only [LowRiskBotFinal.follower_loop, LowRiskBotFinal.follower_score_pairs,
      running_best_aux]
    by_cases h : bv <
        ((self.score_as_follower perspective opp leader_move mv base : ℚ) : WithBot ℚ)
    · rw [if_pos h, if_pos h, ih]
    · rw [if_neg h, if_neg h, ih]

lemma LowRiskBotFinal.evaluate_moves_as_follower_eq (self : LowRiskBotFinal)
    (moves : List Move) (perspective : PlayerPerspective) (leader_move : Move) :
    self.evaluate_moves_as_follower moves perspective leader_move =
      running_best (self.follower_score_pairs perspective
        (LowRiskBotFinal.estimate_opponents_potential_score perspective)
        leader_move moves 0) := by
  rw [LowRiskBotFinal.evaluate_moves_as_follower, LowRiskBotFinal.follower_loop_eq]
  rfl

end LoopBridges

section StrictSelection

/-- The running best of a non-empty candidate/score list is a candidate
whose score is maximal and strictly above every earlier candidate's score. -/
lemma running_best_spec {α : Type} (pairs : List (α × ℚ)) (h : pairs ≠ []) :
    ∃ i c, pairs.get? i = some c ∧ running_best pairs = some c.1 ∧
      (∀ j w, pairs.get? j = some w → w.2 ≤ c.2) ∧
      (∀ j w, j < i → pairs.get? j = some w → w.2 < c.2) := by
  obtain ⟨i, c, hget, hfb, hub, hstrict⟩ := first_best_spec pairs h
  refine ⟨i, c, hget, ?_, hub, hstrict⟩
  rw [running_best_eq_first_best, hfb]
  rfl

lemma MidRiskBot.mid_get_move_first_argmax (self : MidRiskBot) (p : PlayerPerspective)
    (lm : Option Move) (h : p.valid_moves ≠ []) :
    ∃ i c, (self.score_pairs p p.valid_moves 0).get? i = some c ∧
      p.valid_moves.get? i = some c.1 ∧
      self.get_move p lm = some c.1 ∧
      (∀ j w, (self.score_pairs p p.valid_moves 0).get? j = some w → w.2 ≤ c.2) ∧
      (∀ j w, j < i →
        (self.score_pairs p p.valid_moves 0).get? j = some w → w.2 < c.2) := by
  have hmap := self.score_pairs_map_fst p p.valid_moves 0
  have hp : self.score_pairs p p.valid_moves 0 ≠ [] := by
    intro hnil
    rw [hnil] at hmap
    exact h hmap.symm
  obtain ⟨i, c, hget, hrb, hub, hstrict⟩ := running_best_spec _ hp
  refine ⟨i, c, hget, ?_, ?_, hub, hstrict⟩
  · rw [← hmap, List.get?_map, hget]
    rfl
  · rw [self.get_move_eq_running_best p lm, hrb]

lemma LowRiskBotFinal.follower_first_argmax (self : LowRiskBotFinal)
    (moves : List Move) (p : PlayerPerspective) (leader_move : Move)
    (h : moves ≠ []) :
    ∃ i c, (self.follower_score_pairs p
        (LowRiskBotFinal.estimate_opponents_potential_score p)
        leader_move moves 0).get? i = some c ∧
      moves.get? i = some c.1 ∧
      self.evaluate_moves_as_follower moves p leader_move = some c.1 ∧
      (∀ j w, (self.follower_score_pairs p
          (LowRiskBotFinal.estimate_opponents_potential_score p)
          leader_move moves 0).get? j = some w → w.2 ≤ c.2) ∧
      (∀ j w, j < i → (self.follower_score_pairs p
          (LowRiskBotFinal.estimate_opponents_potential_score p)
          leader_move moves 0).get? j = some w → w.2 < c.2) := by
  have hmap := self.follower_score_pairs_map_fst p
    (LowRiskBotFinal.estimate_opponents_potential_score p) leader_move moves 0
  have hp : self.follower_score_pairs p
      (LowRiskBotFinal.estimate_opponents_potential_score p) leader_move moves 0 ≠ [] := by
    intro hnil
    rw [hnil] at hmap
    exact h hmap.symm
  obtain ⟨i, c, hget, hrb, hub, hstrict⟩ := running_best_spec _ hp
  refine ⟨i, c, hget, ?_, ?_, hub, hstrict⟩
  · rw [← hmap, List.get?_map, hget]
    rfl
  · rw [self.evaluate_moves_as_follower_eq moves p leader_move, hrb]

lemma HighRiskBotFinal.high_get_move_first_argmax (self : HighRiskBotFinal)
    (p : PlayerPerspective) (h : p.valid_moves ≠ []) :
    ∃ i s m,
      (p.valid_moves.map (HighRiskBotFinal.high_reward_evaluation p)).get? i = some s ∧
      p.valid_moves.get? i = some m ∧
      self.get_move p = some m ∧
      (∀ j w, (p.valid_moves.map
        (HighRiskBotFinal.high_reward_evaluation p)).get? j = some w → w ≤ s) ∧
      (∀ j w, j < i → (p.valid_moves.map
        (HighRiskBotFinal.high_reward_evaluation p)).get? j = some w → w < s) := by
  have hv : p.valid_moves.map (HighRiskBotFinal.high_reward_evaluation p) ≠ [] := by
    intro hnil
    exact h (List.map_eq_nil.mp hnil)
  obtain ⟨M, hM, hmem, hub⟩ := pymax_spec _ hv
  obtain ⟨hget, hne⟩ := pyindex_spec _ M hmem
  obtain ⟨m, hm, _⟩ := Option.map_eq_some'.mp (by rw [← List.get?_map]; exact hget)
  refine ⟨pyindex (p.valid_moves.map (HighRiskBotFinal.high_reward_evaluation p)) M,
    M, m, hget, hm, ?_, ?_, ?_⟩
  · simp only [HighRiskBotFinal.get_move]
    rw [hM]
    exact hm
  · intro j w hw
    exact hub w (List.get?_mem hw)
  · intro j w hj hw
    exact lt_of_le_of_ne (hub w (List.get?_mem hw)) (hne j w hj hw)

/-- C4: For every non-empty candidate list, each variant's move selection
returns the candidate whose aggregate score is strictly maximal under a
running strict `>` comparison: the first candidate (in shuffled order) to
attain the maximum aggregate is returned, and later candidates with an
equal aggregate never displace it, so the shuffle position is the
tie-breaker.  Stated for `MidRiskBot.get_move`, `HighRiskBotFinal.get_move`
and `LowRiskBotFinal.evaluate_moves_as_follower`. -/
theorem C4_strict_selection :
    (∀ (self : MidRiskBot) (p : PlayerPerspective) (lm : Option Move),
      p.valid_moves ≠ [] →
      ∃ i c, (self.score_pairs p p.valid_moves 0).get? i = some c ∧
        p.valid_moves.get? i = some c.1 ∧
        self.get_move p lm = some c.1 ∧
        (∀ j w, (self.score_pairs p p.valid_moves 0).get? j = some w → w.2 ≤ c.2) ∧
        (∀ j w, j < i →
          (self.score_pairs p p.valid_moves 0).get? j = some w → w.2 < c.2)) ∧
    (∀ (self : HighRiskBotFinal) (p : PlayerPerspective), p.valid_moves ≠ [] →
      ∃ i s m,
        (p.valid_moves.map (HighRiskBotFinal.high_reward_evaluation p)).get? i = some s ∧
        p.valid_moves.get? i = some m ∧
        self.get_move p = some m ∧
        (∀ j w, (p.valid_moves.map
          (HighRiskBotFinal.high_reward_evaluation p)).get? j = some w → w ≤ s) ∧
        (∀ j w, j < i → (p.valid_moves.map
          (HighRiskBotFinal.high_reward_evaluation p)).get? j = some w → w < s)) ∧
    (∀ (self : LowRiskBotFinal) (moves : List Move) (p : PlayerPerspective)
        (leader_move : Move), moves ≠ [] →
      ∃ i c, (self.follower_score_pairs p
          (LowRiskBotFinal.estimate_opponents_potential_score p)
          leader_move moves 0).get? i = some c ∧
        moves.get? i = some c.1 ∧
        self.evaluate_moves_as_follower moves p leader_move = some c.1 ∧
        (∀ j w, (self.follower_score_pairs p
            (LowRiskBotFinal.estimate_opponents_potential_score p)
            leader_move moves 0).get? j = some w → w.2 ≤ c.2) ∧
        (∀ j w, j < i → (self.follower_score_pairs p
            (LowRiskBotFinal.estimate_opponents_potential_score p)
            leader_move moves 0).get? j = some w → w.2 < c.2)) :=
  ⟨MidRiskBot.mid_get_move_first_argmax, HighRiskBotFinal.high_get_move_first_argmax,
    LowRiskBotFinal.follower_first_argmax⟩

end StrictSelection

section ConcreteObjects

/-- A minimal game state used by concrete instantiations. -/
def sampleGameState : GameState :=
  { follower := { hand := [] }, trump_suit := Suit.HEARTS }

/-- The trump jack used by concrete instantiations. -/
def sampleJack : Card := { rank := .JACK, suit := .HEARTS }

/-- A perspective with no valid moves. -/
def emptyPerspective : PlayerPerspective :=
  { valid_moves := []
    make_assumption := fun _ _ => sampleGameState
    get_opponent_won_cards := []
    phase_two := false
    get_opponent_hand_in_phase_two := []
    get_known_cards_of_opponent_hand := []
    get_initial_deck := []
    seen_cards := []
    get_trump_suit := Suit.HEARTS
    get_state_in_phase_two := sampleGameState }

/-- A perspective with a single valid move (a trump exchange). -/
def oneMovePerspective : PlayerPerspective :=
  { valid_moves := [Move.TrumpExchange sampleJack]
    make_assumption := fun _ _ => sampleGameState
    get_opponent_won_cards := []
    phase_two := true
    get_opponent_hand_in_phase_two := []
    get_known_cards_of_opponent_hand := []
    get_initial_deck := []
    seen_cards := []
    get_trump_suit := Suit.HEARTS
    get_state_in_phase_two := sampleGameState }

end ConcreteObjects

section EmptyMoves

/-- C10: If `get_move` is called with an empty list of valid moves,
`MidRiskBot.get_move` and `LowRiskBotFinal.get_move` return `None` instead
of a `Move` (the running best stays `None` because the candidate loop body
never runs; nothing raises). -/
theorem C10_empty_moves_return_none :
    (∀ (self : MidRiskBot) (p : PlayerPerspective) (lm : Option Move),
      p.valid_moves = [] → self.get_move p lm = none) ∧
    (∀ (self : LowRiskBotFinal) (p : PlayerPerspective) (lm : Option Move),
      p.valid_moves = [] → (self.get_move p lm).2 = none) := by
  constructor
  · intro self p lm h
    rw [MidRiskBot.get_move, h]
    rfl
  · intro self p lm h
    cases lm with
    | none =>
        simp only [LowRiskBotFinal.get_move, h]
        rfl
    | some m =>
        simp only [LowRiskBotFinal.get_move, h]
        rfl

/-- Witness for C10 at concrete bots and an empty-move perspective. -/
theorem C10_empty_moves_return_none_witness :
    (MidRiskBot.init 5 2).get_move emptyPerspective none = none ∧
    (({ risk_tolerance := 3/10, num_samples := 5, depth := 2, my_past_moves := [],
        opponent_past_moves := [] } : LowRiskBotFinal).get_move emptyPerspective
        (some Move.UnknownMove)).2 = none :=
  ⟨C10_empty_moves_return_none.1 (MidRiskBot.init 5 2) emptyPerspective none rfl,
    C10_empty_moves_return_none.2 _ emptyPerspective (some Move.UnknownMove) rfl⟩

end EmptyMoves

section AverageUnseen

/-- The two bots' average-unseen-card-value functions are the same
function. -/
lemma LowRiskBotFinal.avg_eq_high :
    LowRiskBotFinal.get_average_value_card = HighRiskBotFinal.get_average_value_card :=
  rfl

/-- C8: For every view, the average-unseen-card-value computation returns
the sum of trick values of the unseen cards (initial deck minus all seen
cards) divided by their count, and returns 0 (with no division ever
attempted) when the unseen-card set is empty — in both variants that define
it. -/
theorem C8_average_unseen_value :
    (∀ (p : PlayerPerspective),
      (p.get_initial_deck.filter (fun card => decide (card ∉ p.seen_cards)) = [] →
        HighRiskBotFinal.get_average_value_card p = 0) ∧
      (p.get_initial_deck.filter (fun card => decide (card ∉ p.seen_cards)) ≠ [] →
        HighRiskBotFinal.get_average_value_card p =
          ((p.get_initial_deck.filter (fun card => decide (card ∉ p.seen_cards))).map
            (fun card => SchnapsenTrickScorer.rank_to_points card.rank)).sum /
          ((p.get_initial_deck.filter
            (fun card => decide (card ∉ p.seen_cards))).length : ℚ))) ∧
    (∀ (p : PlayerPerspective),
      (p.get_initial_deck.filter (fun card => decide (card ∉ p.seen_cards)) = [] →
        LowRiskBotFinal.get_average_value_card p = 0) ∧
      (p.get_initial_deck.filter (fun card => decide (card ∉ p.seen_cards)) ≠ [] →
        LowRiskBotFinal.get_average_value_card p =
          ((p.get_initial_deck.filter (fun card => decide (card ∉ p.seen_cards))).map
            (fun card => SchnapsenTrickScorer.rank_to_points card.rank)).sum /
          ((p.get_initial_deck.filter
            (fun card => decide (card ∉ p.seen_cards))).length : ℚ))) := by
  have hgen : ∀ (p : PlayerPerspective),
      (p.get_initial_deck.filter (fun card => decide (card ∉ p.seen_cards)) = [] →
        HighRiskBotFinal.get_average_value_card p = 0) ∧
      (p.get_initial_deck.filter (fun card => decide (card ∉ p.seen_cards)) ≠ [] →
        HighRiskBotFinal.get_average_value_card p =
          ((p.get_initial_deck.filter (fun card => decide (card ∉ p.seen_cards))).map
            (fun card => SchnapsenTrickScorer.rank_to_points card.rank)).sum /
          ((p.get_initial_deck.filter
            (fun card => decide (card ∉ p.seen_cards))).length : ℚ)) := by
    intro p
    constructor
    · intro h
      simp only [HighRiskBotFinal.get_average_value_card]
      rw [h]
      rfl
    · intro h
      have hne : (p.get_initial_deck.filter
          (fun card => decide (card ∉ p.seen_cards))).isEmpty = false := by
        cases hfe : p.get_initial_deck.filter (fun card => decide (card ∉ p.seen_cards)) with
        | nil => exact absurd hfe h
        | cons a l => rfl
      simp only [HighRiskBotFinal.get_average_value_card, hne, Bool.false_eq_true,
        if_false]
  exact ⟨hgen, by rw [LowRiskBotFinal.avg_eq_high]; exact hgen⟩

/-- Witness for C8: the empty-deck perspective yields 0, and a one-card
unseen deck yields that card's trick value. -/
theorem C8_average_unseen_value_witness :
    HighRiskBotFinal.get_average_value_card emptyPerspective = 0 ∧
    LowRiskBotFinal.get_average_value_card
      { emptyPerspective with
        get_initial_deck := [{ rank := .ACE, suit := .HEARTS }] } = 11 := by
  constructor
  · exact (C8_average_unseen_value.1 emptyPerspective).1 rfl
  · have h := (C8_average_unseen_value.2
      { emptyPerspective with
        get_initial_deck := [{ rank := .ACE, suit := .HEARTS }] }).2
      (by simp [emptyPerspective])
    rw [h]
    norm_num [emptyPerspective, SchnapsenTrickScorer.rank_to_points]

end AverageUnseen

section ConstructionValidation

/-- C3 (amended): `HighRiskBotFinal` and `LowRiskBotFinal` reject
construction with `num_samples < 1` or `depth < 1` via their asserts;
`MidRiskBot.__init__` performs no such validation (see the
counterexample). -/
theorem C3_construction_validation (num_samples depth : Int) (t : ℚ)
    (h : num_samples < 1 ∨ depth < 1) :
    HighRiskBotFinal.init num_samples depth t = none ∧
      LowRiskBotFinal.init num_samples depth t = none := by
  have hc : ¬ (1 ≤ num_samples ∧ 1 ≤ depth) := by omega
  constructor
  · simp only [HighRiskBotFinal.init]
    rw [if_neg hc]
  · simp only [LowRiskBotFinal.init]
    rw [if_neg hc]

/-- Witness for C3 (amended) at `num_samples = 0`. -/
theorem C3_construction_validation_witness :
    HighRiskBotFinal.init 0 3 (1/2) = none ∧ LowRiskBotFinal.init 0 3 (1/2) = none :=
  C3_construction_validation 0 3 (1/2) (by norm_num)

/-- Counterexample to C3 as stated: `MidRiskBot.__init__` accepts
`num_samples = -1 < 1` and `depth = 0 < 1` without any error, and the
resulting agent is usable — its `get_move` runs and returns a move (with
`num_samples = -1`, Python's `range` is empty and the division is by `-1`,
so nothing raises there either). -/
theorem C3_counterexample :
    (MidRiskBot.init (-1) 0).num_samples = -1 ∧
      (MidRiskBot.init (-1) 0).depth = 0 ∧
      (MidRiskBot.init (-1) 0).get_move oneMovePerspective none =
        some (Move.TrumpExchange sampleJack) := by
  refine ⟨rfl, rfl, ?_⟩
  show MidRiskBot.get_move _ _ _ = _
  rw [MidRiskBot.get_move]
  show MidRiskBot.get_move_loop _ _ [Move.TrumpExchange sampleJack] 0 none ⊥ = _
  simp only [MidRiskBot.get_move_loop, MidRiskBot.average_net_gain, MidRiskBot.init]
  norm_num

end ConstructionValidation

section SamplingAggregate

/-- A left fold accumulating `+ f k` is the sum of the mapped list. -/
lemma foldl_add_eq_sum {α : Type} (f : α → ℚ) :
    ∀ (l : List α) (init : ℚ),
      l.foldl (fun acc k => acc + f k) init = init + (l.map f).sum := by
  intro l
  induction l with
  | nil => intro init; simp
  | cons x rest ih =>
      intro init
      simp only [List.foldl_cons, List.map_cons, List.sum_cons, ih, add_assoc]

/-- The per-candidate aggregate that claim C2 prescribes, following the
spec's words: average over `num_samples` trials, each drawing one sampled
state and scoring `netGain = reward − risk − opponentPotential`, stated
with `HighRiskBotFinal`'s own evaluators. -/
def HighRiskBotFinal.claimed_aggregate (self : HighRiskBotFinal)
    (p : PlayerPerspective) (move : Move) (base : Nat) : ℚ :=
  ((List.range self.num_samples.toNat).map (fun k =>
    HighRiskBotFinal.evaluate_points_accumulated (p.make_assumption none (base + k)) move -
      self.evaluate_risk (p.make_assumption none (base + k)) move -
      HighRiskBotFinal.estimate_opponents_potential_score p)).sum /
    (self.num_samples : ℚ)

/-- The concrete `HighRiskBotFinal` instance of the C2 counterexample. -/
def c2HighBot : HighRiskBotFinal :=
  { risk_tolerance := 8/10, num_samples := 1, depth := 1, my_past_moves := [],
    opponent_past_moves := [] }

/-- Counterexample to C2 as stated: `HighRiskBotFinal.get_move` does not
evaluate candidates over `num_samples` sampling trials at all.  On a
one-candidate perspective it scores the trump exchange with its
deterministic reward heuristic (value 0, no risk or opponent term), while
the aggregate prescribed by the claim — built from `num_samples` trial
values `reward − risk − opponentPotential` with the bot's own evaluators —
equals −6/25 at the same input. -/
theorem C2_counterexample :
    HighRiskBotFinal.high_reward_evaluation oneMovePerspective
        (Move.TrumpExchange sampleJack) = 0 ∧
    c2HighBot.claimed_aggregate oneMovePerspective (Move.TrumpExchange sampleJack) 0 =
      -6/25 ∧
    HighRiskBotFinal.high_reward_evaluation oneMovePerspective
        (Move.TrumpExchange sampleJack) ≠
      c2HighBot.claimed_aggregate oneMovePerspective (Move.TrumpExchange sampleJack) 0 ∧
    c2HighBot.get_move oneMovePerspective = some (Move.TrumpExchange sampleJack) := by
  have h1 : HighRiskBotFinal.high_reward_evaluation oneMovePerspective
      (Move.TrumpExchange sampleJack) = 0 := rfl
  have h2 : c2HighBot.claimed_aggregate oneMovePerspective
      (Move.TrumpExchange sampleJack) 0 = -6/25 := by
    norm_num [HighRiskBotFinal.claimed_aggregate, HighRiskBotFinal.evaluate_points_accumulated,
      HighRiskBotFinal.evaluate_risk, HighRiskBotFinal.estimate_probability_of_consequence,
      HighRiskBotFinal.estimate_consequence_severity,
      HighRiskBotFinal.estimate_opponents_potential_score,
      HighRiskBotFinal.get_average_value_card, HighRiskBotFinal.estimate_marriage_points,
      SchnapsenTrickScorer.marriage_pending_points, oneMovePerspective, sampleGameState,
      sampleJack, c2HighBot, List.range_succ]
  refine ⟨h1, h2, ?_, ?_⟩
  · rw [h1, h2]
    norm_num
  · rfl

/-- C2 (amended): `MidRiskBot.get_move` and both of `LowRiskBotFinal`'s
candidate evaluations score each candidate from exactly `num_samples`
sampling trials — `MidRiskBot` averages trial values `reward − risk`
(no opponent-potential term) and always draws with `leader_move=None`, so
its result is independent of the leading move it was given;
`LowRiskBotFinal` sums trial values `(reward − risk) − opponentPotential`,
the opponent potential computed once per turn, and its follower evaluation
fixes the opponent's leading move in every draw.  `HighRiskBotFinal.get_move`
runs no sampling trials: its choice is a function of the perspective alone,
independent of the whole bot state (`num_samples`, tolerance and history). -/
theorem C2_sampling_aggregate :
    (∀ (self : MidRiskBot) (p : PlayerPerspective) (move : Move) (base : Nat),
      self.average_net_gain p move base =
        ((List.range self.num_samples.toNat).map (fun k =>
          MidRiskBot.evaluate_points_accumulated (p.make_assumption none (base + k)) move -
            self.evaluate_risk (p.make_assumption none (base + k)) move)).sum /
          (self.num_samples : ℚ)) ∧
    (∀ (self : MidRiskBot) (p : PlayerPerspective) (lm lm2 : Option Move),
      self.get_move p lm = self.get_move p lm2) ∧
    (∀ (self : LowRiskBotFinal) (p : PlayerPerspective) (opp : ℚ) (move : Move)
        (base : Nat),
      self.net_gain_as_leader p opp move base =
        ((List.range self.num_samples.toNat).map (fun k =>
          LowRiskBotFinal.evaluate_points_accumulated (p.make_assumption none (base + k))
              move -
            self.evaluate_risk (p.make_assumption none (base + k)) move - opp)).sum) ∧
    (∀ (self : LowRiskBotFinal) (p : PlayerPerspective) (opp : ℚ) (lm move : Move)
        (base : Nat),
      self.score_as_follower p opp lm move base =
        ((List.range self.num_samples.toNat).map (fun k =>
          LowRiskBotFinal.evaluate_points_accumulated
              (p.make_assumption (some lm) (base + k)) move -
            self.evaluate_risk (p.make_assumption (some lm) (base + k)) move - opp)).sum) ∧
    (∀ (self : LowRiskBotFinal) (moves : List Move) (p : PlayerPerspective),
      self.evaluate_moves_as_leader moves p =
        running_best (self.leader_score_pairs p
          (LowRiskBotFinal.estimate_opponents_potential_score p) moves 0)) ∧
    (∀ (b b2 : HighRiskBotFinal) (p : PlayerPerspective),
      b.get_move p = b2.get_move p) := by
  refine ⟨?_, ?_, ?_, ?_, ?_, ?_⟩
  · intro self p move base
    simp only [MidRiskBot.average_net_gain]
    rw [foldl_add_eq_sum (fun k =>
      MidRiskBot.evaluate_points_accumulated (p.make_assumption none (base + k)) move -
        self.evaluate_risk (p.make_assumption none (base + k)) move), zero_add]
  · intro self p lm lm2
    rfl
  · intro self p opp move base
    simp only [LowRiskBotFinal.net_gain_as_leader]
    rw [foldl_add_eq_sum (fun k =>
      LowRiskBotFinal.evaluate_points_accumulated (p.make_assumption none (base + k))
          move -
        self.evaluate_risk (p.make_assumption none (base + k)) move - opp), zero_add]
  · intro self p opp lm move base
    simp only [LowRiskBotFinal.score_as_follower]
    rw [foldl_add_eq_sum (fun k =>
      LowRiskBotFinal.evaluate_points_accumulated (p.make_assumption (some lm) (base + k))
          move -
        self.evaluate_risk (p.make_assumption (some lm) (base + k)) move - opp), zero_add]
  · exact LowRiskBotFinal.evaluate_moves_as_leader_eq
  · intro b b2 p
    rfl

end SamplingAggregate

/-- Witness for C4 at a concrete bot and one-candidate perspective. -/
theorem C4_strict_selection_witness :
    ∃ i c, ((MidRiskBot.init 1 1).score_pairs oneMovePerspective
        oneMovePerspective.valid_moves 0).get? i = some c ∧
      oneMovePerspective.valid_moves.get? i = some c.1 ∧
      (MidRiskBot.init 1 1).get_move oneMovePerspective none = some c.1 ∧
      (∀ j w, ((MidRiskBot.init 1 1).score_pairs oneMovePerspective
          oneMovePerspective.valid_moves 0).get? j = some w → w.2 ≤ c.2) ∧
      (∀ j w, j < i → ((MidRiskBot.init 1 1).score_pairs oneMovePerspective
          oneMovePerspective.valid_moves 0).get? j = some w → w.2 < c.2) :=
  C4_strict_selection.1 (MidRiskBot.init 1 1) oneMovePerspective none
    (List.cons_ne_nil _ _)
